import Mathlib

/-!
Verification of the image-optimizer service against its specification.

The Go sources are shallowly embedded: pure helpers become Lean functions on
`List Char` / `Int` / `Nat`, effectful handler bodies become functions from an
environment record (one field per external call result) to an outcome record
(HTTP status, DB writes, object-store operations, returned error).  Go float64
arithmetic in the resize computation is modelled by exact rationals, and Go
int(x) conversion by truncation toward zero.
-/

namespace ImageOptimizer

/-! ## Go path helpers (path.Ext, path.Base, strings.TrimSuffix)

Embedded from the Go standard library functions used by
internal/minio/minio/minio_client.go GenerateObjectName. -/

/-- Helper for `goPathExt`: walks the reversed character list from the end of
the path, accumulating characters until the final dot of the final
slash-separated element is found. -/
def goExtAux : List Char → List Char → List Char
  | _, [] => []
  | acc, c :: rest =>
    if c = '/' then []
    else if c = '.' then '.' :: acc
    else goExtAux (c :: acc) rest

/-- Go path.Ext: the suffix beginning at the final dot in the final
slash-separated element of the path; empty if there is no dot. -/
def goPathExt (s : List Char) : List Char := goExtAux [] s.reverse

/-- Go path.Base: the last element of the path after trailing slashes are
removed; "." for the empty path and "/" if the path is all slashes. -/
def goPathBase (s : List Char) : List Char :=
  if s.isEmpty then ['.']
  else
    let t := (s.reverse.dropWhile (fun c => c = '/')).reverse
    let u := (t.reverse.takeWhile (fun c => c ≠ '/')).reverse
    if u.isEmpty then ['/'] else u

/-- Go strings.TrimSuffix: removes the given suffix when present. -/
def goTrimSuffix (s suf : List Char) : List Char :=
  if suf.isSuffixOf s then s.take (s.length - suf.length) else s

/-! ## Object key generation (minio_client.go) -/

/-- Character class kept by sanitizeFileName in minio_client.go: the rune
function of strings.Map returns the rune for letters, digits and the three
marks, and -1 (drop) otherwise. -/
def goAllowedChar (c : Char) : Bool :=
  (decide ('a' ≤ c) && decide (c ≤ 'z')) || (decide ('A' ≤ c) && decide (c ≤ 'Z')) ||
    (decide ('0' ≤ c) && decide (c ≤ '9')) || decide (c = '_') || decide (c = '-') ||
    decide (c = '.')

/-- sanitizeFileName from minio_client.go: replace every space by an
underscore, then keep only the allowed characters. -/
def sanitizeFileName (s : List Char) : List Char :=
  (s.map (fun c => if c = ' ' then '_' else c)).filter goAllowedChar

/-- GenerateObjectName from minio_client.go: "{id}/{sanitizedBase}{ext}" where
ext is path.Ext of the file name and sanitizedBase sanitizes the basename
without its extension. -/
def generateObjectName (id fileName : List Char) : List Char :=
  let e := goPathExt fileName
  let b := goTrimSuffix (goPathBase fileName) e
  id ++ '/' :: (sanitizeFileName b ++ e)

/-- Character class written from the words of the specification: characters
inside [A-Za-z0-9._-] are kept. -/
def specAllowedChar (c : Char) : Bool :=
  (decide ('A' ≤ c) && decide (c ≤ 'Z')) || (decide ('a' ≤ c) && decide (c ≤ 'z')) ||
    (decide ('0' ≤ c) && decide (c ≤ '9')) || decide (c = '.') || decide (c = '_') ||
    decide (c = '-')

/-- Sanitized basename as described by the specification: the basename of the
filename without its extension, with every space replaced by an underscore and
every character outside [A-Za-z0-9._-] removed. -/
def specSanitizedBase (fileName : List Char) : List Char :=
  ((goTrimSuffix (goPathBase fileName) (goPathExt fileName)).map
    (fun c => if c = ' ' then '_' else c)).filter specAllowedChar

theorem allowedChar_agree (c : Char) : goAllowedChar c = specAllowedChar c := by
  rw [Bool.eq_iff_iff]
  simp only [goAllowedChar, specAllowedChar, Bool.or_eq_true, Bool.and_eq_true,
    decide_eq_true_eq]
  tauto

example :
    generateObjectName "0b-id".data "my photo (1).jpg".data = "0b-id/my_photo_1.jpg".data := by
  decide

example : generateObjectName "i".data "dir/a b.png".data = "i/a_b.png".data := by decide

/-- Claim C9: GenerateObjectName is deterministic in (id, filename) — it is a
pure function of exactly those two arguments — and returns
"{id}/{sanitized_basename}{ext}", where the sanitized basename is the
basename without extension with spaces replaced by underscores and every
character outside [A-Za-z0-9._-] removed. -/
theorem generateObjectName_spec (id fileName : List Char) :
    generateObjectName id fileName =
      id ++ '/' :: (specSanitizedBase fileName ++ goPathExt fileName) := by
  have h : ∀ l : List Char, l.filter goAllowedChar = l.filter specAllowedChar :=
    fun l => List.filter_congr (fun a _ => allowedChar_agree a)
  simp only [generateObjectName, specSanitizedBase, sanitizeFileName, h]

/-! ## Image processor (internal/processor/image, src/unnamed/part_007) -/

/-- Config passed to the processor (MaxWidth, MaxHeight, Quality,
OptimizeStorage). Go int is modelled by Int. -/
structure ProcessorConfig where
  maxWidth : Int
  maxHeight : Int
  quality : Int
  optimizeStorage : Bool
deriving DecidableEq

/-- Go conversion int(q) of a float64 value: truncation toward zero, modelled
on exact rationals. -/
def ratTruncToZero (q : ℚ) : Int := if q < 0 then -(⌊-q⌋) else ⌊q⌋

/-- Dimension computation of ProcessImage (part_007 lines 86-109): when both
maxima are positive, scale by the smaller of the two factors when it is below
one, otherwise keep the original dimensions.  Go float64 division and
multiplication are modelled by exact rational arithmetic. -/
def computeNewDims (cfg : ProcessorConfig) (originalWidth originalHeight : Int) : Int × Int :=
  if 0 < cfg.maxWidth ∧ 0 < cfg.maxHeight then
    let widthFactor : ℚ := (cfg.maxWidth : ℚ) / (originalWidth : ℚ)
    let heightFactor : ℚ := (cfg.maxHeight : ℚ) / (originalHeight : ℚ)
    let scaleFactor := min widthFactor heightFactor
    if scaleFactor < 1 then
      (ratTruncToZero ((originalWidth : ℚ) * scaleFactor),
       ratTruncToZero ((originalHeight : ℚ) * scaleFactor))
    else
      (originalWidth, originalHeight)
  else
    (originalWidth, originalHeight)

/-- Result record of ProcessImage. -/
structure ProcessingResult where
  optimizedPath : List Char
  optimizedSize : Nat
  optimizedWidth : Int
  optimizedHeight : Int
deriving DecidableEq

/-- External-call results consumed by one run of ProcessImage.  getImage
combines GetImage and io.ReadAll (none is a failure of either);
decodeResult is image.Decode on the fetched bytes (dimensions and format);
originalSize is len(imgData); encodeResult is the length of the bytes produced
by the jpeg/png encoder for the resized raster (none is an encoder error);
uploadOk is the result of UploadImage. -/
structure ProcessEnv where
  getImage : Option Unit
  originalSize : Nat
  decodeResult : Option (Int × Int × String)
  encodeResult : Option Nat
  uploadOk : Bool
deriving DecidableEq

/-- Key of the optimized variant: "{id}/optimized{ext}" (part_007 line 136). -/
def optimizedKey (imageID fileName : List Char) : List Char :=
  imageID ++ '/' :: ("optimized".data ++ goPathExt fileName)

deriving instance DecidableEq for Except

/-- Outcome of ProcessImage: the returned result or error, and the object-store
keys for which an upload was attempted. -/
structure ProcessOutcome where
  result : Except String ProcessingResult
  uploads : List (List Char)
deriving DecidableEq

/-- ProcessImage (part_007 lines 48-195): fetch, decode, compute dimensions,
resize, re-encode in the original format, then upload the encoded bytes at the
optimized key when they are smaller than the original or the dimensions
changed or OptimizeStorage is set, and otherwise return the original path,
size and dimensions without uploading. -/
def processImage (env : ProcessEnv) (imageID originalPath fileName : List Char)
    (cfg : ProcessorConfig) : ProcessOutcome :=
  match env.getImage with
  | none => ⟨.error "error getting image from MinIO", []⟩
  | some _ =>
    match env.decodeResult with
    | none => ⟨.error "error decoding image", []⟩
    | some (originalWidth, originalHeight, format) =>
      let dims := computeNewDims cfg originalWidth originalHeight
      let optPath := optimizedKey imageID fileName
      if format = "jpeg" ∨ format = "png" then
        match env.encodeResult with
        | none => ⟨.error "error encoding processed image", []⟩
        | some encodedSize =>
          if encodedSize < env.originalSize ∨ dims.1 ≠ originalWidth ∨
              dims.2 ≠ originalHeight ∨ cfg.optimizeStorage then
            if env.uploadOk then
              ⟨.ok ⟨optPath, encodedSize, dims.1, dims.2⟩, [optPath]⟩
            else
              ⟨.error "error uploading processed image", [optPath]⟩
          else
            ⟨.ok ⟨originalPath, env.originalSize, originalWidth, originalHeight⟩, []⟩
      else
        ⟨.error ("unsupported image format: " ++ format), []⟩

/-- Modelled from the Go standard library image/jpeg encoder used at part_007
line 141: Encode clamps a non-nil Options.Quality into [1,100] before use.
This is dependency code, embedded from its documented behavior. -/
def goJpegEffectiveQuality (q : Int) : Int :=
  if q < 1 then 1 else if q > 100 then 100 else q

/-- Quality actually used when ProcessImage re-encodes a JPEG: the processor
passes config.Quality unchanged in jpeg.Options (part_007 lines 141-143), and
the encoder clamps it. -/
def processImageJpegQuality (cfg : ProcessorConfig) : Int :=
  goJpegEffectiveQuality cfg.quality

example : computeNewDims ⟨0, 1200, 85, true⟩ 5000 5000 = (5000, 5000) := by decide

theorem ratTruncToZero_of_nonneg (q : ℚ) (h : 0 ≤ q) : ratTruncToZero q = ⌊q⌋ := by
  unfold ratTruncToZero
  rw [if_neg (not_lt.mpr h)]

/-- Claim C5: with both maxima positive and s = min(max_width/W, max_height/H),
the processor resizes to (floor(W·s), floor(H·s)) when s < 1 and keeps the
original dimensions when s ≥ 1 or when either maximum is non-positive; the
image is never upscaled. -/
theorem computeNewDims_spec (mw mh q : Int) (opt : Bool) (W H : Int)
    (hW : 0 < W) (hH : 0 < H) :
    (0 < mw → 0 < mh → min ((mw : ℚ) / (W : ℚ)) ((mh : ℚ) / (H : ℚ)) < 1 →
      computeNewDims ⟨mw, mh, q, opt⟩ W H =
        (⌊(W : ℚ) * min ((mw : ℚ) / (W : ℚ)) ((mh : ℚ) / (H : ℚ))⌋,
         ⌊(H : ℚ) * min ((mw : ℚ) / (W : ℚ)) ((mh : ℚ) / (H : ℚ))⌋)) ∧
    (0 < mw → 0 < mh → 1 ≤ min ((mw : ℚ) / (W : ℚ)) ((mh : ℚ) / (H : ℚ)) →
      computeNewDims ⟨mw, mh, q, opt⟩ W H = (W, H)) ∧
    ((mw ≤ 0 ∨ mh ≤ 0) → computeNewDims ⟨mw, mh, q, opt⟩ W H = (W, H)) ∧
    ((computeNewDims ⟨mw, mh, q, opt⟩ W H).1 ≤ W ∧
      (computeNewDims ⟨mw, mh, q, opt⟩ W H).2 ≤ H) := by
  have hWq : (0 : ℚ) ≤ (W : ℚ) := by exact_mod_cast hW.le
  have hHq : (0 : ℚ) ≤ (H : ℚ) := by exact_mod_cast hH.le
  refine ⟨?_, ?_, ?_, ?_⟩
  · intro hmw hmh hs
    have h1 : (0 : ℚ) ≤ (mw : ℚ) / (W : ℚ) :=
      div_nonneg (by exact_mod_cast hmw.le) hWq
    have h2 : (0 : ℚ) ≤ (mh : ℚ) / (H : ℚ) :=
      div_nonneg (by exact_mod_cast hmh.le) hHq
    have hmin : (0 : ℚ) ≤ min ((mw : ℚ) / (W : ℚ)) ((mh : ℚ) / (H : ℚ)) := le_min h1 h2
    simp only [computeNewDims]
    rw [if_pos ⟨hmw, hmh⟩, if_pos hs,
      ratTruncToZero_of_nonneg _ (mul_nonneg hWq hmin),
      ratTruncToZero_of_nonneg _ (mul_nonneg hHq hmin)]
  · intro hmw hmh hs
    simp only [computeNewDims]
    rw [if_pos ⟨hmw, hmh⟩, if_neg (not_lt.mpr hs)]
  · intro hle
    simp only [computeNewDims]
    rw [if_neg (by omega)]
  · simp only [computeNewDims]
    by_cases hpos : 0 < mw ∧ 0 < mh
    · rw [if_pos hpos]
      by_cases hs : min ((mw : ℚ) / (W : ℚ)) ((mh : ℚ) / (H : ℚ)) < 1
      · rw [if_pos hs]
        have h1 : (0 : ℚ) ≤ (mw : ℚ) / (W : ℚ) :=
          div_nonneg (by exact_mod_cast hpos.1.le) hWq
        have h2 : (0 : ℚ) ≤ (mh : ℚ) / (H : ℚ) :=
          div_nonneg (by exact_mod_cast hpos.2.le) hHq
        have hmin : (0 : ℚ) ≤ min ((mw : ℚ) / (W : ℚ)) ((mh : ℚ) / (H : ℚ)) := le_min h1 h2
        constructor
        · rw [ratTruncToZero_of_nonneg _ (mul_nonneg hWq hmin)]
          have : (W : ℚ) * min ((mw : ℚ) / (W : ℚ)) ((mh : ℚ) / (H : ℚ)) ≤ (W : ℚ) := by
            calc (W : ℚ) * min ((mw : ℚ) / (W : ℚ)) ((mh : ℚ) / (H : ℚ))
                ≤ (W : ℚ) * 1 := by
                  exact mul_le_mul_of_nonneg_left hs.le hWq
              _ = (W : ℚ) := mul_one _
          calc ⌊(W : ℚ) * min ((mw : ℚ) / (W : ℚ)) ((mh : ℚ) / (H : ℚ))⌋
              ≤ ⌊(W : ℚ)⌋ := Int.floor_le_floor this
            _ = W := Int.floor_intCast W
        · rw [ratTruncToZero_of_nonneg _ (mul_nonneg hHq hmin)]
          have : (H : ℚ) * min ((mw : ℚ) / (W : ℚ)) ((mh : ℚ) / (H : ℚ)) ≤ (H : ℚ) := by
            calc (H : ℚ) * min ((mw : ℚ) / (W : ℚ)) ((mh : ℚ) / (H : ℚ))
                ≤ (H : ℚ) * 1 := by
                  exact mul_le_mul_of_nonneg_left hs.le hHq
              _ = (H : ℚ) := mul_one _
          calc ⌊(H : ℚ) * min ((mw : ℚ) / (W : ℚ)) ((mh : ℚ) / (H : ℚ))⌋
              ≤ ⌊(H : ℚ)⌋ := Int.floor_le_floor this
            _ = H := Int.floor_intCast H
      · rw [if_neg hs]
        exact ⟨le_refl W, le_refl H⟩
    · rw [if_neg hpos]
      exact ⟨le_refl W, le_refl H⟩

/-- Witness for computeNewDims_spec: a 2048×1536 image with 1200×1200 maxima
is scaled to 1200×900. -/
theorem computeNewDims_spec_witness :
    min ((1200 : ℚ) / 2048) ((1200 : ℚ) / 1536) < 1 ∧
      computeNewDims ⟨1200, 1200, 85, true⟩ 2048 1536 = (1200, 900) := by
  refine ⟨by norm_num, ?_⟩
  have h := (computeNewDims_spec 1200 1200 85 true 2048 1536 (by norm_num)
    (by norm_num)).1 (by norm_num) (by norm_num) (by norm_num)
  rw [h]
  have hmin : min ((1200 : ℚ) / 2048) ((1200 : ℚ) / 1536) = (1200 : ℚ) / 2048 :=
    min_eq_left (by norm_num)
  push_cast
  rw [hmin]
  norm_num

/-- Claim C6: the effective JPEG encoding quality is the requested quality
clamped into [1,100] — above 100 becomes 100, below 1 becomes 1, values in
range pass through unchanged. -/
theorem processImageJpegQuality_clamp (mw mh q : Int) (opt : Bool) :
    processImageJpegQuality ⟨mw, mh, q, opt⟩ = max 1 (min 100 q) := by
  simp only [processImageJpegQuality, goJpegEffectiveQuality]
  split
  · omega
  · split <;> omega

/-- Claim C4: for a fetched, decoded image in a supported format whose
re-encoding succeeds and whose upload would succeed, ProcessImage uploads the
encoded bytes at "{id}/optimized{ext}" and returns that path with the encoded
size and the computed dimensions exactly when the encoded output is smaller
than the original or the dimensions changed or optimize_storage is set; in
every other case it uploads nothing and returns the original path, size and
dimensions. -/
theorem processImage_output_choice (env : ProcessEnv)
    (imageID originalPath fileName : List Char) (cfg : ProcessorConfig)
    (W H : Int) (fmt : String) (enc : Nat)
    (hget : env.getImage = some ())
    (hdec : env.decodeResult = some (W, H, fmt))
    (hfmt : fmt = "jpeg" ∨ fmt = "png")
    (henc : env.encodeResult = some enc)
    (hup : env.uploadOk = true) :
    ((enc < env.originalSize ∨ (computeNewDims cfg W H).1 ≠ W ∨
        (computeNewDims cfg W H).2 ≠ H ∨ cfg.optimizeStorage = true) →
      processImage env imageID originalPath fileName cfg =
        ⟨.ok ⟨optimizedKey imageID fileName, enc,
              (computeNewDims cfg W H).1, (computeNewDims cfg W H).2⟩,
         [optimizedKey imageID fileName]⟩) ∧
    (¬(enc < env.originalSize ∨ (computeNewDims cfg W H).1 ≠ W ∨
        (computeNewDims cfg W H).2 ≠ H ∨ cfg.optimizeStorage = true) →
      processImage env imageID originalPath fileName cfg =
        ⟨.ok ⟨originalPath, env.originalSize, W, H⟩, []⟩) := by
  constructor
  · intro hcond
    simp only [processImage, hget, hdec, henc]
    rw [if_pos hfmt, if_pos (by simpa using hcond), if_pos hup]
  · intro hcond
    simp only [processImage, hget, hdec, henc]
    rw [if_pos hfmt, if_neg (by simpa using hcond)]

/-- Environment for the processImage_output_choice witness: a 100×80 JPEG of
5000 bytes whose re-encoding yields 3000 bytes; maxima of 0 keep the
dimensions, optimize_storage is off, so the upload happens because the encoded
output is smaller. -/
def processEnvW : ProcessEnv :=
  ⟨some (), 5000, some (100, 80, "jpeg"), some 3000, true⟩

/-- Witness for processImage_output_choice at a concrete environment. -/
theorem processImage_output_choice_witness :
    processImage processEnvW "img1".data "img1/a.jpg".data "a.jpg".data ⟨0, 0, 85, false⟩ =
      ⟨.ok ⟨optimizedKey "img1".data "a.jpg".data, 3000,
            (computeNewDims ⟨0, 0, 85, false⟩ 100 80).1,
            (computeNewDims ⟨0, 0, 85, false⟩ 100 80).2⟩,
       [optimizedKey "img1".data "a.jpg".data]⟩ :=
  (processImage_output_choice processEnvW "img1".data "img1/a.jpg".data "a.jpg".data
    ⟨0, 0, 85, false⟩ 100 80 "jpeg" 3000 rfl rfl (Or.inl rfl) rfl rfl).1
    (Or.inl (by decide))

/-! ## RabbitMQ client connect (internal/queue/rabbitmq, logger.go part lines 224-256)

The dial oracle maps the attempt index to some connection handle (amqp.Dial
succeeded) or none (amqp.Dial failed; Go then also has conn == nil).  The Go
loop runs maxRetries = 5 times starting from retryDelay = 1 second, doubling
the delay after each iteration that reaches the sleep.  The body tests
err != nil and, in that branch, returns (conn, nil) — the nil connection with
a nil error; on err == nil it logs a failure, sleeps and retries. -/

/-- One execution of the retry loop of connect, faithful to the source: the
first component is the returned (connection, error) pair — Except.ok carries
the returned connection value, which is none exactly when Go returns a nil
amqp.Connection pointer — and the second component is the list of sleeps in
seconds. -/
def connectAux (dial : Nat → Option Nat) : Nat → Nat → Nat →
    Except String (Option Nat) × List Nat
  | _, _, 0 => (.error "failed to connect to RabbitMQ after 5 attempts", [])
  | i, delay, fuel + 1 =>
    match dial i with
    | none => (.ok none, [])
    | some _ =>
      let rest := connectAux dial (i + 1) (2 * delay) fuel
      (rest.1, delay :: rest.2)

/-- connect from the RabbitMQ client: maxRetries = 5, initial retryDelay = 1s. -/
def connect (dial : Nat → Option Nat) : Except String (Option Nat) × List Nat :=
  connectAux dial 0 1 5

/-- Claim C1: the connect retry loop is inverted in the code.  When every dial
attempt fails, connect immediately returns a nil connection together with a
nil error — no retry, no backoff, no failure surfaced — and when every dial
attempt succeeds it discards each connection, sleeps 1,2,4,8,16 seconds and
returns an error after the five attempts.  This contradicts the log messages
of the code itself (the err != nil branch logs Connected to RabbitMQ, the
success path logs Failed to connect, retrying) as well as the claim. -/
theorem connect_inverted_retry :
    connect (fun _ => none) = (.ok none, []) ∧
      connect (fun i => some i) =
        (.error "failed to connect to RabbitMQ after 5 attempts", [1, 2, 4, 8, 16]) := by
  constructor
  · rfl
  · rfl

/-! ## Worker (internal/worker: processTask, processImageResize) and the
Consume ack/nack discipline (rabbitmq client Consume loop)

The embedded worker is the variant described by the specification: the one
that fetches the row before processing to obtain the original size for the
size-reduction metric.  Task payload fields are modelled post-JSON-decoding:
a field is none when absent or of the wrong dynamic type (a failed Go type
assertion), and numeric config values are the already-truncated float64
values. -/

/-- Decoded data.config map of a task. -/
structure TaskConfigData where
  maxWidth : Option Int
  maxHeight : Option Int
  quality : Option Int
  optimizeStorage : Option Bool
deriving DecidableEq

/-- Decoded task payload data map.  none models a missing key or a failed type
assertion. -/
structure TaskData where
  imageID : Option String
  originalPath : Option String
  filename : Option String
  config : Option TaskConfigData
deriving DecidableEq

/-- Task envelope after JSON decoding. -/
structure Task where
  id : String
  type : String
  data : TaskData
deriving DecidableEq

/-- Effective processor config computed by processImageResize lines 604-645:
absent values fall back to the defaults 1200/1200/85/true, then non-positive
maxima and out-of-range quality are replaced by the defaults again. -/
def effectiveConfig (d : TaskConfigData) : ProcessorConfig :=
  let mw := d.maxWidth.getD 1200
  let mh := d.maxHeight.getD 1200
  let q := d.quality.getD 85
  let opt := d.optimizeStorage.getD true
  ⟨if mw ≤ 0 then 1200 else mw,
   if mh ≤ 0 then 1200 else mh,
   if q ≤ 0 ∨ 100 < q then 85 else q,
   opt⟩

/-- Repository update calls issued by the worker, in order. -/
inductive DbWrite where
  | status (s : String) (errMsg : String)
  | optimized (path : List Char) (size : Nat) (w h : Int)
deriving DecidableEq

/-- External-call results consumed by one worker task: whether the root
context is already cancelled, whether uuid.Parse accepts the image_id, the
errors (none = success) of the two repository updates, GetImageByID (some
row-original-size, or none for any error including a missing row), and the
processor result as a function of the effective config. -/
structure WorkerEnv where
  ctxCancelled : Bool
  uuidValid : String → Bool
  updateStatusProcessing : Option String
  getImage : Option Int
  processResult : ProcessorConfig → Except String ProcessingResult
  updateOptimized : Option String

/-- Outcome of one worker task: the repository calls issued, whether the
size-reduction metric was recorded, and the error returned to the consume
loop (none makes the loop Ack, some makes it Nack with requeue). -/
structure WorkerOutcome where
  writes : List DbWrite
  sizeMetricRecorded : Bool
  result : Option String
deriving DecidableEq

/-- processImageResize from the worker: validate payload fields, set status
processing, compute the effective config, fetch the row for the metric (a
failure is only logged), process, then either record the optimized result or
mark the image failed; every failure path returns an error. -/
def processImageResize (env : WorkerEnv) (task : Task) : WorkerOutcome :=
  match task.data.imageID with
  | none => ⟨[], false, some "missing or invalid image_id in task data"⟩
  | some imageID =>
    match task.data.originalPath with
    | none => ⟨[], false, some "missing or invalid original_path in task data"⟩
    | some _ =>
      match task.data.filename with
      | none => ⟨[], false, some "missing or invalid filename in task data"⟩
      | some _ =>
        match task.data.config with
        | none => ⟨[], false, some "missing or invalid config in task data"⟩
        | some cfgData =>
          if env.uuidValid imageID = false then
            ⟨[], false, some ("invalid image ID format " ++ imageID)⟩
          else
            match env.updateStatusProcessing with
            | some e =>
              ⟨[DbWrite.status "processing" ""], false,
               some ("error updating image status before processing: " ++ e)⟩
            | none =>
              let cfg := effectiveConfig cfgData
              let imgData := env.getImage
              match env.processResult cfg with
              | .error e =>
                ⟨[DbWrite.status "processing" "",
                  DbWrite.status "failed" ("error processing image: " ++ e)],
                 false, some e⟩
              | .ok r =>
                match env.updateOptimized with
                | some e =>
                  ⟨[DbWrite.status "processing" "",
                    DbWrite.optimized r.optimizedPath r.optimizedSize
                      r.optimizedWidth r.optimizedHeight,
                    DbWrite.status "failed"
                      ("error updating image record after successful processing: " ++ e)],
                   false, some e⟩
                | none =>
                  ⟨[DbWrite.status "processing" "",
                    DbWrite.optimized r.optimizedPath r.optimizedSize
                      r.optimizedWidth r.optimizedHeight],
                   imgData.isSome, none⟩

/-- processTask from the worker: give up with the context error when the
shutdown context wins the semaphore select, dispatch resize_image tasks, and
fail on any other task type. -/
def processTask (env : WorkerEnv) (task : Task) : WorkerOutcome :=
  if env.ctxCancelled then ⟨[], false, some "context canceled"⟩
  else if task.type = "resize_image" then processImageResize env task
  else ⟨[], false, some ("unknown task type: " ++ task.type)⟩

/-- Ack decision of the Consume loop in the RabbitMQ client: a handler error
is answered with Nack(requeue = true), success with Ack. -/
inductive AckDecision where
  | ack
  | nackRequeue
deriving DecidableEq

/-- Decision taken by the Consume loop for one delivered message handled by
the worker. -/
def consumeStep (env : WorkerEnv) (task : Task) : AckDecision :=
  match (processTask env task).result with
  | some _ => .nackRequeue
  | none => .ack

/-- Claim C2 (amended): the consume loop Acks a task exactly when every step
of the worker succeeded; every failure — permanent (unknown type, bad
payload, unsupported format) as much as transient (storage or DB errors) —
makes the handler return an error and the message is Nack-requeued.  No
failure is acked. -/
theorem worker_ack_iff (env : WorkerEnv) (task : Task) :
    consumeStep env task = .ack ↔
      (env.ctxCancelled = false ∧ task.type = "resize_image" ∧
        (∃ iid, task.data.imageID = some iid ∧ env.uuidValid iid = true) ∧
        task.data.originalPath.isSome = true ∧ task.data.filename.isSome = true ∧
        (∃ cd, task.data.config = some cd ∧
          ∃ r, env.processResult (effectiveConfig cd) = .ok r) ∧
        env.updateStatusProcessing = none ∧ env.updateOptimized = none) := by
  obtain ⟨tid, ttype, iid, op, fn, cd⟩ := task
  simp only [consumeStep, processTask, processImageResize]
  by_cases hc : env.ctxCancelled
  · simp [hc]
  · by_cases ht : ttype = "resize_image"
    · cases iid with
      | none => simp [hc, ht]
      | some iidv =>
        cases op with
        | none => simp [hc, ht]
        | some opv =>
          cases fn with
          | none => simp [hc, ht]
          | some fnv =>
            cases cd with
            | none => simp [hc, ht]
            | some cdv =>
              by_cases hu : env.uuidValid iidv
              · cases hsp : env.updateStatusProcessing with
                | some e => simp [hc, ht, hu, hsp]
                | none =>
                  cases hpr : env.processResult (effectiveConfig cdv) with
                  | error e => simp [hc, ht, hu, hsp, hpr]
                  | ok r =>
                    cases hopt : env.updateOptimized with
                    | some e => simp [hc, ht, hu, hsp, hpr, hopt]
                    | none => simp [hc, ht, hu, hsp, hpr, hopt]
              · simp [hc, ht, hu]
    · simp [hc, ht]

/-- All-success worker environment used by the consume counterexample. -/
def workerEnvOk : WorkerEnv :=
  ⟨false, fun _ => true, none, some 900,
   fun _ => .ok ⟨"img1/optimized.jpg".data, 10, 1, 1⟩, none⟩

/-- A task whose type is not resize_image: a permanently unprocessable task. -/
def taskUnknownType : Task :=
  ⟨"t1", "delete_image",
   ⟨some "im", some "im/a.jpg", some "a.jpg",
    some ⟨some 1200, some 1200, some 85, some true⟩⟩⟩

/-- Counterexample to claim C2 as stated: a task with an unknown type — a
permanent failure — is Nack-requeued, not acked, and the worker performs no
DB write at all (in particular the image is not marked failed). -/
theorem consume_permanent_failure_nacked :
    consumeStep workerEnvOk taskUnknownType = .nackRequeue ∧
      (processTask workerEnvOk taskUnknownType).writes = [] ∧
      AckDecision.nackRequeue ≠ AckDecision.ack :=
  ⟨rfl, rfl, by decide⟩

/-- Claim C3 (amended): the result of fetching the image row before
processing has no effect on the DB writes the worker issues or on the
error it returns — a missing row is neither a permanent failure nor any
failure; only the size-reduction metric is skipped. -/
theorem worker_row_fetch_frame (env : WorkerEnv) (task : Task) (sz : Int) :
    (processImageResize { env with getImage := none } task).writes =
        (processImageResize { env with getImage := some sz } task).writes ∧
      (processImageResize { env with getImage := none } task).result =
        (processImageResize { env with getImage := some sz } task).result := by
  obtain ⟨tid, ttype, iid, op, fn, cd⟩ := task
  simp only [processImageResize]
  cases iid with
  | none => simp
  | some iidv =>
    cases op with
    | none => simp
    | some opv =>
      cases fn with
      | none => simp
      | some fnv =>
        cases cd with
        | none => simp
        | some cdv =>
          by_cases hu : env.uuidValid iidv
          · cases hsp : env.updateStatusProcessing with
            | some e => simp [hu, hsp]
            | none =>
              cases hpr : env.processResult (effectiveConfig cdv) with
              | error e => simp [hu, hsp, hpr]
              | ok r =>
                cases hopt : env.updateOptimized with
                | some e => simp [hu, hsp, hpr, hopt]
                | none => simp [hu, hsp, hpr, hopt]
          · simp [hu]

/-- Worker environment in which the row fetch fails (missing row) and every
other step succeeds. -/
def workerEnvRowMissing : WorkerEnv :=
  ⟨false, fun _ => true, none, none,
   fun _ => .ok ⟨"img1/optimized.jpg".data, 100, 50, 40⟩, none⟩

/-- A well-formed resize task. -/
def taskResizeOk : Task :=
  ⟨"t2", "resize_image",
   ⟨some "im", some "im/a.jpg", some "a.jpg",
    some ⟨some 1200, some 1200, some 85, some true⟩⟩⟩

/-- Counterexample to claim C3 as stated: with the row fetch failing and all
other steps succeeding, the worker does not mark the image failed — it
completes the task, writes the optimized record, and the message is acked
as a success, with only the size-reduction metric skipped. -/
theorem worker_row_fetch_failure_continues :
    processImageResize workerEnvRowMissing taskResizeOk =
        ⟨[DbWrite.status "processing" "",
          DbWrite.optimized "img1/optimized.jpg".data 100 50 40], false, none⟩ ∧
      consumeStep workerEnvRowMissing taskResizeOk = .ack :=
  ⟨rfl, rfl⟩

/-! ## HTTP handlers (internal/api/handlers/image_handler.go) -/

/-- Helper for goAtoi: accumulates decimal digits, failing on any other
character. -/
def parseDigitsAux : List Char → Nat → Option Nat
  | [], acc => some acc
  | c :: rest, acc =>
    if c.isDigit then parseDigitsAux rest (acc * 10 + (c.toNat - '0'.toNat))
    else none

/-- Go strconv.Atoi as used with a discarded error: an optional sign followed
by at least one digit yields the value, anything else yields the zero value
that Go Atoi returns alongside its error.  Overflow is not modelled; the
handler only ever compares the result against small bounds. -/
def goAtoi (s : List Char) : Int :=
  let signDigits : Bool × List Char :=
    match s with
    | '-' :: rest => (true, rest)
    | '+' :: rest => (false, rest)
    | _ => (false, s)
  match signDigits.2 with
  | [] => 0
  | ds =>
    match parseDigitsAux ds 0 with
    | none => 0
    | some n => if signDigits.1 then -(n : Int) else (n : Int)

/-- Pagination values computed by ListImages. -/
structure ListParams where
  limit : Int
  page : Int
  offset : Int
deriving DecidableEq

/-- ListImages parameter handling (image_handler.go lines 263-287): query
values default to "10" and "1", a non-positive limit falls back to 10, a
limit above 100 is capped at 100, a non-positive page falls back to 1, and
the offset is (page - 1) * limit. -/
def listImagesParams (limitQuery pageQuery : Option (List Char)) : ListParams :=
  let limit := goAtoi (limitQuery.getD "10".data)
  let page := goAtoi (pageQuery.getD "1".data)
  let limit := if limit ≤ 0 then 10 else limit
  let limit := if 100 < limit then 100 else limit
  let page := if page ≤ 0 then 1 else page
  ⟨limit, page, (page - 1) * limit⟩

example : listImagesParams none none = ⟨10, 1, 0⟩ := by decide

example : listImagesParams (some "101".data) (some "3".data) = ⟨100, 3, 200⟩ := by decide

/-- Counterexample to claim C7 as stated: a limit query of 0 is replaced by
the default 10, not clamped to 1. -/
theorem listImages_limit_zero_hits_default :
    listImagesParams (some "0".data) (some "1".data) = ⟨10, 1, 0⟩ ∧ (10 : Int) ≠ 1 :=
  ⟨by decide, by decide⟩

/-- Claim C7 (amended): the limit defaults to 10 and any non-positive or
unparseable limit value falls back to that default; a limit above 100 is
capped at 100; a parseable limit in [1,100] is used unchanged; the page
defaults to 1, non-positive pages fall back to 1, and the offset handed to
the repository is (page - 1) * limit. -/
theorem listImages_pagination (limitQuery pageQuery : Option (List Char)) :
    (goAtoi (limitQuery.getD "10".data) ≤ 0 →
      (listImagesParams limitQuery pageQuery).limit = 10) ∧
    (100 < goAtoi (limitQuery.getD "10".data) →
      (listImagesParams limitQuery pageQuery).limit = 100) ∧
    (0 < goAtoi (limitQuery.getD "10".data) →
      goAtoi (limitQuery.getD "10".data) ≤ 100 →
      (listImagesParams limitQuery pageQuery).limit =
        goAtoi (limitQuery.getD "10".data)) ∧
    (goAtoi (pageQuery.getD "1".data) ≤ 0 →
      (listImagesParams limitQuery pageQuery).page = 1) ∧
    (0 < goAtoi (pageQuery.getD "1".data) →
      (listImagesParams limitQuery pageQuery).page =
        goAtoi (pageQuery.getD "1".data)) ∧
    (listImagesParams limitQuery pageQuery).offset =
      ((listImagesParams limitQuery pageQuery).page - 1) *
        (listImagesParams limitQuery pageQuery).limit := by
  simp only [listImagesParams]
  refine ⟨?_, ?_, ?_, ?_, ?_, ?_⟩
  · intro h; split_ifs <;> omega
  · intro h; split_ifs <;> omega
  · intro h h2; split_ifs <;> omega
  · intro h
    split_ifs
    omega
  · intro h
    split_ifs
    · omega
    · omega
  · trivial

/-- Witness for listImages_pagination: limit 101 is capped at 100. -/
theorem listImages_pagination_witness :
    100 < goAtoi ("101".data) ∧
      (listImagesParams (some "101".data) (some "1".data)).limit = 100 :=
  ⟨by decide, (listImages_pagination (some "101".data) (some "1".data)).2.1 (by decide)⟩

/-- External-call results consumed by one run of UploadImage: the multipart
file (filename and size) or a FormFile error, the result of the 512-byte read
for MIME sniffing, the sniffed content type, the result of ValidateImage, and
the results of the MinIO upload, the DB insert and the queue publish. -/
structure UploadEnv where
  formFile : Option (List Char × Int)
  readMimeOk : Bool
  detectedMime : String
  validate : Except String (Int × Int × Int × String)
  uploadOk : Bool
  createOk : Bool
  publishOk : Bool
deriving DecidableEq

/-- Outcome of UploadImage: HTTP status, whether the 202 body with the id and
status "pending" was returned, whether the MinIO object was deleted as
cleanup after a DB failure, and whether the task publish succeeded. -/
structure UploadOutcome where
  status : Int
  pendingBody : Bool
  cleanupDeleted : Bool
  published : Bool
deriving DecidableEq

/-- UploadImage (image_handler.go lines 45-193): multipart validation, size
cap of 10 MiB, extension and MIME checks, image validation, MinIO upload, DB
insert with MinIO cleanup on failure, then the queue publish whose error is
only logged before the 202 response is produced either way. -/
def uploadImage (env : UploadEnv) : UploadOutcome :=
  match env.formFile with
  | none => ⟨400, false, false, false⟩
  | some (filename, size) =>
    if 10 * 1024 * 1024 < size then ⟨400, false, false, false⟩
    else
      let ext := goPathExt filename
      if ¬(ext = ".jpg".data ∨ ext = ".jpeg".data ∨ ext = ".png".data) then
        ⟨400, false, false, false⟩
      else if env.readMimeOk = false then ⟨400, false, false, false⟩
      else if ¬(env.detectedMime = "image/jpeg" ∨ env.detectedMime = "image/png") then
        ⟨400, false, false, false⟩
      else
        match env.validate with
        | .error _ => ⟨400, false, false, false⟩
        | .ok _ =>
          if env.uploadOk = false then ⟨500, false, false, false⟩
          else if env.createOk = false then ⟨500, false, true, false⟩
          else ⟨202, true, false, env.publishOk⟩

/-- Claim C8: when the object-store put and the DB insert both succeed and
only the queue publish fails, UploadImage still responds 202 with the pending
body; the publish error is logged and never surfaced. -/
theorem upload_publish_failure_still_202 (env : UploadEnv)
    (filename : List Char) (size : Int)
    (hff : env.formFile = some (filename, size))
    (hsize : size ≤ 10 * 1024 * 1024)
    (hext : goPathExt filename = ".jpg".data ∨ goPathExt filename = ".jpeg".data ∨
      goPathExt filename = ".png".data)
    (hread : env.readMimeOk = true)
    (hmime : env.detectedMime = "image/jpeg" ∨ env.detectedMime = "image/png")
    (hval : ∃ v, env.validate = .ok v)
    (hup : env.uploadOk = true)
    (hcreate : env.createOk = true)
    (hpub : env.publishOk = false) :
    uploadImage env = ⟨202, true, false, false⟩ := by
  obtain ⟨v, hv⟩ := hval
  simp only [uploadImage, hff, hv]
  rw [if_neg (not_lt.mpr hsize), if_neg (not_not_intro hext), if_neg (by simp [hread]),
    if_neg (not_not_intro hmime), if_neg (by simp [hup]), if_neg (by simp [hcreate]), hpub]

/-- Environment for the upload_publish_failure_still_202 witness: a valid
small JPEG whose storage and DB steps succeed while the publish fails. -/
def uploadEnvW : UploadEnv :=
  ⟨some ("a.jpg".data, 900), true, "image/jpeg", .ok (100, 80, 900, "jpeg"),
   true, true, false⟩

/-- Witness for upload_publish_failure_still_202 at a concrete environment. -/
theorem upload_publish_failure_still_202_witness :
    uploadImage uploadEnvW = ⟨202, true, false, false⟩ :=
  upload_publish_failure_still_202 uploadEnvW "a.jpg".data 900 rfl (by decide)
    (Or.inl (by decide)) rfl (Or.inl rfl) ⟨(100, 80, 900, "jpeg"), rfl⟩ rfl rfl rfl

/-- Row fields of an image used by DeleteImage. -/
structure ImageRow where
  originalPath : List Char
  optimizedPath : List Char
deriving DecidableEq

/-- External-call results consumed by one run of DeleteImage: whether the id
in the URL parses as a UUID, the row returned by GetImageByID (none is the
404 case), and the result of the DB delete.  The MinIO delete results are
not consulted by the control flow (their errors are only logged). -/
structure DeleteEnv where
  idValid : Bool
  getRow : Option ImageRow
  dbDeleteOk : Bool
deriving DecidableEq

/-- Outcome of DeleteImage: HTTP status and the object-store keys for which a
delete call was issued, in order. -/
structure DeleteOutcome where
  status : Int
  storeDeletes : List (List Char)
deriving DecidableEq

/-- DeleteImage (image_handler.go lines 306-356): parse id, fetch the row,
always delete the original object, delete the optimized object only when
optimized_path is non-empty and differs from original_path, then delete the
row. -/
def deleteImage (env : DeleteEnv) : DeleteOutcome :=
  if env.idValid = false then ⟨400, []⟩
  else
    match env.getRow with
    | none => ⟨404, []⟩
    | some img =>
      let dels := [img.originalPath]
      let dels :=
        if img.optimizedPath ≠ [] ∧ img.optimizedPath ≠ img.originalPath then
          dels ++ [img.optimizedPath]
        else dels
      if env.dbDeleteOk = false then ⟨500, dels⟩ else ⟨200, dels⟩

/-- Claim C10: for a DELETE on an existing row, a second object-store delete
for the optimized path is issued exactly when optimized_path is non-empty and
differs from original_path; in the no-gain fallback (optimized_path equal to
original_path) exactly one delete is issued, so the shared object is never
deleted twice. -/
theorem deleteImage_optimized_delete (env : DeleteEnv) (img : ImageRow)
    (hid : env.idValid = true) (hrow : env.getRow = some img) :
    (deleteImage env).storeDeletes =
        [img.originalPath] ++
          (if img.optimizedPath ≠ [] ∧ img.optimizedPath ≠ img.originalPath then
            [img.optimizedPath]
          else []) ∧
      (img.optimizedPath = img.originalPath →
        (deleteImage env).storeDeletes.length = 1) := by
  have hbase : (deleteImage env).storeDeletes =
      [img.originalPath] ++
        (if img.optimizedPath ≠ [] ∧ img.optimizedPath ≠ img.originalPath then
          [img.optimizedPath]
        else []) := by
    by_cases hdb : env.dbDeleteOk = false
    · by_cases hcond : img.optimizedPath ≠ [] ∧ img.optimizedPath ≠ img.originalPath
      · simp [deleteImage, hid, hrow, hdb, hcond]
      · simp [deleteImage, hid, hrow, hdb, hcond]
    · by_cases hcond : img.optimizedPath ≠ [] ∧ img.optimizedPath ≠ img.originalPath
      · simp [deleteImage, hid, hrow, hdb, hcond]
      · simp [deleteImage, hid, hrow, hdb, hcond]
  refine ⟨hbase, fun heq => ?_⟩
  rw [hbase, if_neg (by simp [heq])]
  rfl

/-- Environment for the deleteImage_optimized_delete witness: an existing row
in the no-gain fallback state, where both paths are the same key. -/
def deleteEnvW : DeleteEnv :=
  ⟨true, some ⟨"im/a.jpg".data, "im/a.jpg".data⟩, true⟩

/-- Witness for deleteImage_optimized_delete: in the fallback state exactly
one object-store delete is issued. -/
theorem deleteImage_optimized_delete_witness :
    (deleteImage deleteEnvW).storeDeletes.length = 1 :=
  (deleteImage_optimized_delete deleteEnvW ⟨"im/a.jpg".data, "im/a.jpg".data⟩
    rfl rfl).2 rfl

end ImageOptimizer
